import Mathlib

/-!
Verification of `number_guess.py`, a single-file terminal number-guessing
game with a JSON-backed leaderboard.

The program is shallowly embedded:
* interactive input (`input()`) becomes an explicit list of input lines,
  consumed from the front;
* the backing file `scores.json` becomes a `FileState` (absent, corrupt,
  or holding a parsed list of records);
* ambient effects (`time.time()`, `random.randint`) become explicit
  parameters;
* Python `int` is `Int`, the float `time_taken` is modelled as `ℚ`.
-/

namespace NumberGuess

/-! ### Models of the Python string primitives used by the program -/

/-- Whitespace characters removed by Python `str.strip()` (the ASCII
whitespace repertoire; `strip` also removes some further Unicode spaces,
which never occur in this development). -/
def pySpace (c : Char) : Bool :=
  c = ' ' || c = '\t' || c = '\n' || c = '\x0d' || c = '\x0b' || c = '\x0c'

/-- Model of Python `str.strip()`: drop leading and trailing whitespace. -/
def pyStrip (s : String) : String :=
  ⟨((s.toList.dropWhile pySpace).reverse.dropWhile pySpace).reverse⟩

/-- Model of Python `str.isdigit` on a single character.  `str.isdigit` is
true for characters of Unicode `Numeric_Type` Decimal *or* Digit; the
latter class includes the superscript digits U+00B9, U+00B2, U+00B3,
which are *not* accepted by `int()`.  The model covers the ASCII decimal
digits and the three superscripts (the repertoire relevant here). -/
def pyIsDigitChar (c : Char) : Bool :=
  c.isDigit || c = '¹' || c = '²' || c = '³'

/-- Python `s.isdigit()` on a list of characters: nonempty and every
character a digit (`"".isdigit()` is `False`). -/
def pyIsDigitList (cs : List Char) : Bool :=
  !cs.isEmpty && cs.all pyIsDigitChar

/-- Python `s.isdigit()` on a string. -/
def pyIsDigitStr (s : String) : Bool :=
  pyIsDigitList s.toList

/-- Decimal value of a character as accepted by Python `int()`:
only `Numeric_Type=Decimal` characters have one.  In particular the
superscript digits, although `isdigit`, have no decimal value and make
`int()` raise `ValueError`. -/
def pyDecDigit (c : Char) : Option Nat :=
  if c.isDigit then some (c.toNat - '0'.toNat) else none

/-- Base-10 value of a digit string, `none` if some character is not a
decimal digit (then `int()` raises). -/
def pyDigitsVal (cs : List Char) : Option Nat :=
  cs.foldl
    (fun acc c =>
      match acc, pyDecDigit c with
      | some a, some d => some (a * 10 + d)
      | _, _ => none)
    (some 0)

/-- Model of Python `int(val)` on the strings that reach it in `ask_int`
(nonempty, already checked to be `isdigit` or `-` followed by `isdigit`):
the signed base-10 value when every digit is decimal, `none` (ValueError)
otherwise. -/
def pyInt (s : String) : Option Int :=
  match s.toList with
  | '-' :: r => (pyDigitsVal r).map (fun n => -(n : Int))
  | l => (pyDigitsVal l).map (fun n => (n : Int))

/-- Floor of a rational, computed on its normalised fields. -/
def ratFloor (q : ℚ) : Int :=
  q.num.fdiv q.den

/-- Python `round(q, 2)`: scale by 100, round half-to-even, scale back.
(Idealised over ℚ; the program only ever sorts and reprints this value.) -/
def roundHalfEven (q : ℚ) : Int :=
  let f : Int := ratFloor q
  if q - f < 1 / 2 then f
  else if q - f > 1 / 2 then f + 1
  else if 2 ∣ f then f else f + 1

/-- Python `round(time_taken, 2)`. -/
def pyRound2 (q : ℚ) : ℚ :=
  (roundHalfEven (q * 100) : ℚ) / 100

/-! ### Data model: score records and the backing file -/

/-- One leaderboard entry, as serialized to `scores.json`
(`save_score`, lines 28–34 of the source). -/
structure ScoreRecord where
  name : String
  attempts : Int
  time_taken : ℚ
  difficulty : String
  timestamp : Int
deriving DecidableEq

/-- State of the backing file `scores.json`: absent, present but not
valid JSON, or present with a parsed list of records. -/
inductive FileState where
  | absent
  | corrupt
  | content (l : List ScoreRecord)
deriving DecidableEq

/-- `load_scores()` (source lines 17–24): `[]` when the file is absent,
`[]` when parsing raises (the bare `except`), else the parsed list. -/
def load_scores : FileState → List ScoreRecord
  | .absent => []
  | .corrupt => []
  | .content l => l

/-- The sort key order used by `save_score`:
`key=lambda s: (s["attempts"], s["time_taken"])`, i.e. lexicographic
non-strict order on (attempts, time_taken). -/
def scoreKeyLe (a b : ScoreRecord) : Prop :=
  a.attempts < b.attempts ∨ (a.attempts = b.attempts ∧ a.time_taken ≤ b.time_taken)

instance (a b : ScoreRecord) : Decidable (scoreKeyLe a b) := by
  unfold scoreKeyLe; infer_instance

/-- Strictly-before in the sort key order. -/
def scoreKeyLt (a b : ScoreRecord) : Prop :=
  a.attempts < b.attempts ∨ (a.attempts = b.attempts ∧ a.time_taken < b.time_taken)

instance (a b : ScoreRecord) : Decidable (scoreKeyLt a b) := by
  unfold scoreKeyLt; infer_instance

/-- Boolean comparator handed to the sort, deciding `scoreKeyLe`. -/
def scoreLe (a b : ScoreRecord) : Bool :=
  decide (scoreKeyLe a b)

/-- The arguments of one `save_score(name, attempts, time_taken, difficulty)`
call, together with the ambient `int(time.time())` at the moment of the
call. -/
structure SaveInput where
  name : String
  attempts : Int
  time_taken : ℚ
  difficulty : String
  now : Int
deriving DecidableEq

/-- The record appended by `save_score` (source lines 28–34):
`time_taken` rounded to 2 decimals, `timestamp` the current epoch time. -/
def mkRecord (i : SaveInput) : ScoreRecord :=
  { name := i.name
    attempts := i.attempts
    time_taken := pyRound2 i.time_taken
    difficulty := i.difficulty
    timestamp := i.now }

/-- `save_score` (source lines 26–38): load, append the new record, sort
ascending by (attempts, time_taken), keep the first 20, overwrite the
file with the result.  (`json.dump` followed by `json.load` round-trips
the record list, so writing is modelled as storing the list itself.) -/
def save_score (i : SaveInput) (fs : FileState) : FileState :=
  let scores := load_scores fs
  .content (((scores ++ [mkRecord i]).mergeSort scoreLe).take 20)

/-- A sequence of `save_score` calls performed left to right. -/
def saveFold (inputs : List SaveInput) (fs : FileState) : FileState :=
  inputs.foldl (fun s i => save_score i s) fs

/-- Twenty-five concrete saves with strictly increasing attempts 1..25. -/
def c7Inputs : List SaveInput :=
  (List.range 25).map (fun k =>
    { name := "P", attempts := (k : Int) + 1, time_taken := 0,
      difficulty := "Easy", now := 0 })

/-- A concrete full store of 20 records with attempts 1..20. -/
def c10Prior : List ScoreRecord :=
  (List.range 20).map (fun k =>
    { name := "P", attempts := (k : Int) + 1, time_taken := 0,
      difficulty := "Easy", timestamp := 0 })

/-! ### Leaderboard display -/

/-- Pad a string on the right to width `w` (Python `f"{s:12}"` on str). -/
def pyPadRight (s : String) (w : Nat) : String :=
  s ++ ⟨List.replicate (w - s.length) ' '⟩

/-- Pad a string on the left to width `w` (Python `f"{n:2}"` on numbers). -/
def pyPadLeft (s : String) (w : Nat) : String :=
  (⟨List.replicate (w - s.length) ' '⟩ : String) ++ s

/-- One formatted leaderboard row (source line 48).  `fmtTime` stands for
`time.strftime("%Y-%m-%d %H:%M:%S", time.localtime ts)` and `fmtNum` for
Python's float `str`; both depend on the ambient environment (timezone,
float repr) and are taken as parameters. -/
def leaderboardRow (fmtTime : Int → String) (fmtNum : ℚ → String)
    (i : Nat) (s : ScoreRecord) : String :=
  toString i ++ ". " ++ pyPadRight s.name 12 ++ " | attempts: "
    ++ pyPadLeft (toString s.attempts) 2 ++ " | time: "
    ++ pyPadLeft (fmtNum s.time_taken) 5 ++ "s | "
    ++ pyPadRight s.difficulty 6 ++ " | " ++ fmtTime s.timestamp

/-- `show_leaderboard()` (source lines 40–49), as the list of printed
lines: the distinct empty-store message when no records load, otherwise
a header, the 1-indexed rows, and a footer. -/
def show_leaderboard (fmtTime : Int → String) (fmtNum : ℚ → String)
    (fs : FileState) : List String :=
  let scores := load_scores fs
  if scores.isEmpty then
    ["\nNo leaderboard yet — be the first!\n"]
  else
    "\n--- Leaderboard (best first) ---"
      :: (scores.enumFrom 1).map (fun p => leaderboardRow fmtTime fmtNum p.1 p.2)
      ++ ["-------------------------------\n"]

/-! ### Input reader: `ask_int` -/

/-- Outcome of one `ask_int` call run against a finite list of input
lines: it returns an integer leaving the unconsumed lines, runs out of
input while still looping (in Python: `input()` raises `EOFError`), or
raises `ValueError` from `int(val)` on the given line. -/
inductive AskIntResult where
  | ok (n : Int) (rest : List String)
  | outOfInput
  | error (line : String)
deriving DecidableEq

/-- The syntactic guard of `ask_int` (source line 57) on the stripped
line: `val.isdigit() or (val.startswith("-") and val[1:].isdigit())`. -/
def intShape (s : String) : Bool :=
  pyIsDigitStr s
    || (match s.toList with
        | '-' :: r => pyIsDigitList r
        | _ => false)

/-- The bounds test of `ask_int` (source line 59):
`(minv is not None and n < minv) or (maxv is not None and n > maxv)`. -/
def outOfRange (minv maxv : Option Int) (n : Int) : Bool :=
  (match minv with | some m => decide (n < m) | none => false)
    || (match maxv with | some m => decide (m < n) | none => false)

/-- `ask_int(prompt, minv, maxv)` (source lines 51–64).  Each loop
iteration consumes one input line; empty (after strip), non-integer, and
out-of-range lines re-prompt; the prompt text itself plays no role.
Note the source converts with `int(val)` *before* the range check, so a
line that passes the `isdigit` test but is rejected by `int()` raises. -/
def ask_int (minv maxv : Option Int) : List String → AskIntResult
  | [] => .outOfInput
  | line :: rest =>
    let val := pyStrip line
    if val.toList.isEmpty then ask_int minv maxv rest
    else if intShape val then
      match pyInt val with
      | some n =>
        if outOfRange minv maxv n then ask_int minv maxv rest
        else .ok n rest
      | none => .error line
    else ask_int minv maxv rest

/-! ### Difficulty selector: `choose_difficulty` -/

/-- Outcome of `choose_difficulty` on a finite list of input lines. -/
inductive DiffResult where
  | ok (t : String × Int × Int × Int) (rest : List String)
  | outOfInput
  | error (line : String)
deriving DecidableEq

/-- One menu loop of `choose_difficulty` (source lines 72–88), indexed by
fuel.  Every iteration consumes at least one input line, so any fuel
larger than the number of available lines is exact: exhausting the fuel
can only happen together with exhausting the input. -/
def chooseDifficultyAux : Nat → List String → DiffResult
  | 0, _ => .outOfInput
  | _ + 1, [] => .outOfInput
  | fuel + 1, line :: ls =>
    let choice := pyStrip line
    if choice = "1" then .ok ("Easy", 1, 10, 6) ls
    else if choice = "2" then .ok ("Medium", 1, 50, 7) ls
    else if choice = "3" then .ok ("Hard", 1, 100, 8) ls
    else if choice = "4" then
      match ask_int none none ls with
      | .outOfInput => .outOfInput
      | .error l => .error l
      | .ok low rest1 =>
        match ask_int none none rest1 with
        | .outOfInput => .outOfInput
        | .error l => .error l
        | .ok high rest2 =>
          if high ≤ low then chooseDifficultyAux fuel rest2
          else
            match ask_int (some 1) none rest2 with
            | .outOfInput => .outOfInput
            | .error l => .error l
            | .ok att rest3 => .ok ("Custom", low, high, att) rest3
    else chooseDifficultyAux fuel ls

/-- `choose_difficulty()` (source lines 66–88) run against a finite list
of input lines. -/
def choose_difficulty (lines : List String) : DiffResult :=
  chooseDifficultyAux (lines.length + 1) lines

/-! ### Guess session: `play_round` -/

/-- The direction hint (source lines 106–109). -/
def hintFor (secret guess : Int) : String :=
  if guess < secret then "higher" else "lower"

/-- The closeness qualifier (source lines 111–118), with Python's floor
division `//` modelled by `Int.fdiv`. -/
def closenessFor (low high secret guess : Int) : String :=
  let diff := |secret - guess|
  if diff = 0 then ""
  else if diff ≤ max 1 (Int.fdiv (high - low) 20) then " (very close!)"
  else if diff ≤ max 1 (Int.fdiv (high - low) 5) then " (close)"
  else ""

/-- Outcome of the guessing loop: finished (with the flag `guessed`, the
number of attempts used, the `(hint, closeness)` pairs printed for wrong
guesses, and the unconsumed lines), or the input-reader outcomes. -/
inductive GuessOutcome where
  | finished (guessed : Bool) (attempts : Nat) (events : List (String × String))
      (rest : List String)
  | outOfInput
  | error (line : String)
deriving DecidableEq

/-- The `while attempts < max_attempts` loop of `play_round` (source
lines 99–120): `budget` is the number of remaining iterations,
`attempts` the count so far; each iteration reads one bounded guess via
`ask_int`. -/
def guessLoopAux (secret low high : Int) : Nat → Nat → List String → GuessOutcome
  | 0, attempts, lines => .finished false attempts [] lines
  | budget + 1, attempts, lines =>
    match ask_int (some low) (some high) lines with
    | .outOfInput => .outOfInput
    | .error l => .error l
    | .ok guess rest =>
      if guess = secret then .finished true (attempts + 1) [] rest
      else
        match guessLoopAux secret low high budget (attempts + 1) rest with
        | .finished g a evs r =>
          .finished g a ((hintFor secret guess, closenessFor low high secret guess) :: evs) r
        | o => o

/-- Result of one `play_round` call: the outcome flag, attempts used, the
printed hint events, the difficulty label, the resulting file state, and
the unconsumed input lines. -/
inductive RoundResult where
  | done (guessed : Bool) (attempts : Nat) (events : List (String × String))
      (difficulty : String) (fs : FileState) (rest : List String)
  | outOfInput
  | error (line : String)
deriving DecidableEq

/-- Python truthiness of the `name` argument: `if not name:` prompts for
a name; `None` and `""` are falsy. -/
def resolveName : Option String → Option String
  | some nm => if nm = "" then none else some nm
  | none => none

/-- `play_round(name)` (source lines 90–132).  `rand low high` stands for
`random.randint(low, high)`, `timeTaken` for `time.time() - start`, and
`now` for `int(time.time())` inside `save_score`; all are ambient
effects passed explicitly.  On a win with a falsy `name`, one further
line is consumed for the leaderboard name (empty after strip → "Anon");
on a loss the file state is returned untouched. -/
def play_round (rand : Int → Int → Int) (timeTaken : ℚ) (now : Int)
    (nameArg : Option String) (lines : List String) (fs : FileState) : RoundResult :=
  match choose_difficulty lines with
  | .outOfInput => .outOfInput
  | .error l => .error l
  | .ok (difficulty, low, high, maxAttempts) rest =>
    let secret := rand low high
    match guessLoopAux secret low high maxAttempts.toNat 0 rest with
    | .outOfInput => .outOfInput
    | .error l => .error l
    | .finished guessed attempts events rest2 =>
      if guessed then
        match resolveName nameArg with
        | some nm =>
          .done true attempts events difficulty
            (save_score ⟨nm, (attempts : Int), timeTaken, difficulty, now⟩ fs) rest2
        | none =>
          match rest2 with
          | [] => .outOfInput
          | l :: ls =>
            let nm := if pyStrip l = "" then "Anon" else pyStrip l
            .done true attempts events difficulty
              (save_score ⟨nm, (attempts : Int), timeTaken, difficulty, now⟩ fs) ls
      else .done false attempts events difficulty fs rest2

/-! ### Helper lemmas: the sort key order -/

theorem scoreKeyLe_trans {a b c : ScoreRecord} (h1 : scoreKeyLe a b)
    (h2 : scoreKeyLe b c) : scoreKeyLe a c := by
  rcases h1 with h1 | ⟨e1, t1⟩ <;> rcases h2 with h2 | ⟨e2, t2⟩
  · exact Or.inl (h1.trans h2)
  · exact Or.inl (e2 ▸ h1)
  · exact Or.inl (e1 ▸ h2)
  · exact Or.inr ⟨e1.trans e2, t1.trans t2⟩

theorem scoreKeyLe_total (a b : ScoreRecord) : scoreKeyLe a b ∨ scoreKeyLe b a := by
  rcases lt_trichotomy a.attempts b.attempts with h | h | h
  · exact Or.inl (Or.inl h)
  · rcases le_total a.time_taken b.time_taken with ht | ht
    · exact Or.inl (Or.inr ⟨h, ht⟩)
    · exact Or.inr (Or.inr ⟨h.symm, ht⟩)
  · exact Or.inr (Or.inl h)

theorem scoreLe_iff {a b : ScoreRecord} : scoreLe a b = true ↔ scoreKeyLe a b := by
  simp [scoreLe]

theorem scoreLe_trans : ∀ (a b c : ScoreRecord),
    scoreLe a b → scoreLe b c → scoreLe a c := by
  intro a b c h1 h2
  exact scoreLe_iff.mpr (scoreKeyLe_trans (scoreLe_iff.mp h1) (scoreLe_iff.mp h2))

theorem scoreLe_total : ∀ (a b : ScoreRecord), scoreLe a b || scoreLe b a := by
  intro a b
  rcases scoreKeyLe_total a b with h | h
  · simp [scoreLe_iff.mpr h]
  · simp [scoreLe_iff.mpr h]

theorem scoreKeyLt_irrefl (a : ScoreRecord) : ¬ scoreKeyLt a a := by
  rintro (h | ⟨-, h⟩) <;> exact lt_irrefl _ h

theorem scoreKeyLt_not_le {a b : ScoreRecord} (h : scoreKeyLt a b)
    (h' : scoreKeyLe b a) : False := by
  rcases h with h | ⟨e, t⟩ <;> rcases h' with h' | ⟨e', t'⟩
  · exact lt_irrefl _ (h.trans h')
  · omega
  · omega
  · exact lt_irrefl _ (lt_of_lt_of_le t t')

/-- Pairwise sortedness transfers between the boolean comparator and the
propositional key order. -/
theorem pairwise_scoreLe_iff {l : List ScoreRecord} :
    l.Pairwise (fun a b => scoreLe a b = true) ↔ l.Pairwise scoreKeyLe := by
  constructor
  · exact fun h => h.imp (fun hab => scoreLe_iff.mp hab)
  · exact fun h => h.imp (fun hab => scoreLe_iff.mpr hab)

/-- Sorting with `scoreLe` yields a list that is pairwise in the key
order. -/
theorem pairwise_mergeSort_scoreLe (l : List ScoreRecord) :
    (l.mergeSort scoreLe).Pairwise scoreKeyLe :=
  pairwise_scoreLe_iff.mp (List.sorted_mergeSort scoreLe_trans scoreLe_total l)

/-- If a list of records is already pairwise in the key order, sorting it
is the identity. -/
theorem mergeSort_scoreLe_of_pairwise {l : List ScoreRecord}
    (h : l.Pairwise scoreKeyLe) : l.mergeSort scoreLe = l :=
  List.mergeSort_of_sorted (pairwise_scoreLe_iff.mpr h)

/-! ### Helper lemmas: `ask_int` -/

theorem outOfRange_false {minv maxv : Option Int} {n : Int}
    (h : outOfRange minv maxv n = false) :
    (∀ m, minv = some m → m ≤ n) ∧ (∀ m, maxv = some m → n ≤ m) := by
  constructor
  · intro m hm
    subst hm
    rcases maxv with - | m₂ <;> simp [outOfRange] at h <;> omega
  · intro m hm
    subst hm
    rcases minv with - | m₁ <;> simp [outOfRange] at h <;> omega

/-- Anatomy of a successful `ask_int` call: the value passed the range
test, and it was parsed by `int()` from some input line whose stripped
text passed the syntactic integer-shape guard. -/
theorem ask_int_ok_spec {minv maxv : Option Int} :
    ∀ {lines : List String} {n : Int} {rest : List String},
    ask_int minv maxv lines = .ok n rest →
    outOfRange minv maxv n = false ∧
    ∃ line ∈ lines, intShape (pyStrip line) = true ∧ pyInt (pyStrip line) = some n := by
  intro lines
  induction lines with
  | nil => intro n rest h; simp [ask_int] at h
  | cons line rest' ih =>
    intro n rest h
    rw [ask_int] at h
    by_cases he : (pyStrip line).toList.isEmpty = true
    · rw [if_pos he] at h
      rcases ih h with ⟨h1, l, hl, h2⟩
      exact ⟨h1, l, List.mem_cons_of_mem _ hl, h2⟩
    · rw [if_neg he] at h
      by_cases hs : intShape (pyStrip line) = true
      · rw [if_pos hs] at h
        split at h
        · rename_i n' hpy
          by_cases hr : outOfRange minv maxv n' = true
          · rw [if_pos hr] at h
            rcases ih h with ⟨h1, l, hl, h2⟩
            exact ⟨h1, l, List.mem_cons_of_mem _ hl, h2⟩
          · rw [if_neg hr] at h
            injection h with h1 h2
            subst h1; subst h2
            exact ⟨Bool.not_eq_true _ ▸ hr, line, List.mem_cons_self _ _, hs, hpy⟩
        · cases h
      · rw [if_neg hs] at h
        rcases ih h with ⟨h1, l, hl, h2⟩
        exact ⟨h1, l, List.mem_cons_of_mem _ hl, h2⟩

/-- A successful `ask_int` call consumes at least one input line. -/
theorem ask_int_ok_length {minv maxv : Option Int} :
    ∀ {lines : List String} {n : Int} {rest : List String},
    ask_int minv maxv lines = .ok n rest → rest.length < lines.length := by
  intro lines
  induction lines with
  | nil => intro n rest h; simp [ask_int] at h
  | cons line rest' ih =>
    intro n rest h
    rw [ask_int] at h
    by_cases he : (pyStrip line).toList.isEmpty = true
    · rw [if_pos he] at h
      exact Nat.lt_trans (ih h) (Nat.lt_succ_self _)
    · rw [if_neg he] at h
      by_cases hs : intShape (pyStrip line) = true
      · rw [if_pos hs] at h
        split at h
        · rename_i n' hpy
          by_cases hr : outOfRange minv maxv n' = true
          · rw [if_pos hr] at h
            exact Nat.lt_trans (ih h) (Nat.lt_succ_self _)
          · rw [if_neg hr] at h
            injection h with h1 h2
            subst h2
            exact Nat.lt_succ_self _
        · cases h
      · rw [if_neg hs] at h
        exact Nat.lt_trans (ih h) (Nat.lt_succ_self _)

/-- The fuel of `chooseDifficultyAux` is irrelevant as long as it
exceeds the number of available input lines (each menu iteration
consumes at least one line). -/
theorem chooseDifficultyAux_fuel :
    ∀ (f : Nat) (lines : List String), lines.length < f →
    ∀ (f' : Nat), lines.length < f' →
    chooseDifficultyAux f lines = chooseDifficultyAux f' lines := by
  intro f
  induction f with
  | zero => intro lines h; exact absurd h (Nat.not_lt_zero _)
  | succ f ihf =>
    intro lines h f' h'
    cases f' with
    | zero => exact absurd h' (Nat.not_lt_zero _)
    | succ f₂ =>
      cases lines with
      | nil => rfl
      | cons line ls =>
        have hls : ls.length < f := Nat.lt_of_succ_lt_succ h
        have hls₂ : ls.length < f₂ := Nat.lt_of_succ_lt_succ h'
        rw [chooseDifficultyAux, chooseDifficultyAux]
        by_cases h1 : pyStrip line = "1"
        · rw [if_pos h1, if_pos h1]
        · rw [if_neg h1, if_neg h1]
          by_cases h2 : pyStrip line = "2"
          · rw [if_pos h2, if_pos h2]
          · rw [if_neg h2, if_neg h2]
            by_cases h3 : pyStrip line = "3"
            · rw [if_pos h3, if_pos h3]
            · rw [if_neg h3, if_neg h3]
              by_cases h4 : pyStrip line = "4"
              · rw [if_pos h4, if_pos h4]
                split
                · rfl
                · rfl
                · rename_i low r1 hlow
                  split
                  · rfl
                  · rfl
                  · rename_i high r2 hhigh
                    have hr1 : r1.length < ls.length := ask_int_ok_length hlow
                    have hr2 : r2.length < r1.length := ask_int_ok_length hhigh
                    by_cases hcmp : high ≤ low
                    · rw [if_pos hcmp, if_pos hcmp]
                      exact ihf r2 (by omega) f₂ (by omega)
                    · rw [if_neg hcmp, if_neg hcmp]
              · rw [if_neg h4, if_neg h4]
                exact ihf ls hls f₂ hls₂

/-! ### Claim theorems -/

/-- C1: for every starting store contents and every call to `save_score`,
the store left on disk after the save contains at most 20 records and is
sorted ascending by the key (attempts, time_taken). -/
theorem c1_save_bounded_and_sorted (i : SaveInput) (fs : FileState) :
    (load_scores (save_score i fs)).length ≤ 20 ∧
    (load_scores (save_score i fs)).Pairwise scoreKeyLe := by
  constructor
  · exact List.length_take_le _ _
  · exact (pairwise_mergeSort_scoreLe _).sublist (List.take_sublist _ _)

/-- C3 (code bug exhibit): on the input line `"²"` (U+00B2, SUPERSCRIPT
TWO) `ask_int` neither re-prompts nor returns: `"²".isdigit()` is `True`
in Python, so the source reaches `int("²")`, which raises an uncaught
`ValueError`.  The claim that no input line can make the operation raise
is therefore violated by the code. -/
theorem c3_ask_int_raises_on_superscript :
    ask_int none none ["²"] = .error "²" := by decide

/-- C4: whenever `ask_int` is called with both bounds and returns, the
returned value lies within `[minv, maxv]` inclusive, and the return
happened by accepting a line whose stripped text passes the syntactic
integer-shape guard (optional leading minus, otherwise all digits) and
parses under `int()` to the returned value. -/
theorem c4_ask_int_bounds_and_integer_text (mn mx : Int) (lines : List String)
    (n : Int) (rest : List String)
    (h : ask_int (some mn) (some mx) lines = .ok n rest) :
    (mn ≤ n ∧ n ≤ mx) ∧
    ∃ line ∈ lines, intShape (pyStrip line) = true ∧ pyInt (pyStrip line) = some n := by
  rcases ask_int_ok_spec h with ⟨hrange, hline⟩
  rcases outOfRange_false hrange with ⟨h₁, h₂⟩
  exact ⟨⟨h₁ mn rfl, h₂ mx rfl⟩, hline⟩

/-- Witness for C4 at a concrete run: lines `["abc", " 7 "]` with bounds
`[1, 10]` return `7`, accepted from the line `" 7 "`. -/
theorem c4_witness :
    (1 ≤ (7 : Int) ∧ (7 : Int) ≤ 10) ∧
    ∃ line ∈ ["abc", " 7 "], intShape (pyStrip line) = true ∧ pyInt (pyStrip line) = some 7 :=
  c4_ask_int_bounds_and_integer_text 1 10 ["abc", " 7 "] 7 [] (by decide)

/-- C8: `load_scores` returns the empty list both when the backing file
is absent and when its contents fail to parse (no error surfaced in the
model's total function), and with the file absent `show_leaderboard`
prints exactly the distinct "no leaderboard" message and no records. -/
theorem c8_load_fails_open_and_empty_message
    (fmtTime : Int → String) (fmtNum : ℚ → String) :
    load_scores .absent = [] ∧ load_scores .corrupt = [] ∧
    show_leaderboard fmtTime fmtNum .absent = ["\nNo leaderboard yet — be the first!\n"] :=
  ⟨rfl, rfl, rfl⟩

/-- Every successful `chooseDifficultyAux` run returns one of the three
fixed preset tuples, or a Custom tuple with `low < high` and at least one
attempt. -/
theorem chooseDifficultyAux_ok_spec :
    ∀ (fuel : Nat) (lines : List String) (t : String × Int × Int × Int)
      (rest : List String),
    chooseDifficultyAux fuel lines = .ok t rest →
    t = ("Easy", 1, 10, 6) ∨ t = ("Medium", 1, 50, 7) ∨ t = ("Hard", 1, 100, 8) ∨
      (t.1 = "Custom" ∧ t.2.1 < t.2.2.1 ∧ 1 ≤ t.2.2.2) := by
  intro fuel
  induction fuel with
  | zero => intro lines t rest h; simp [chooseDifficultyAux] at h
  | succ f ih =>
    intro lines t rest h
    match lines with
    | [] => simp [chooseDifficultyAux] at h
    | line :: ls =>
      rw [chooseDifficultyAux] at h
      by_cases h1 : pyStrip line = "1"
      · rw [if_pos h1] at h
        injection h with ht _
        exact Or.inl ht.symm
      · rw [if_neg h1] at h
        by_cases h2 : pyStrip line = "2"
        · rw [if_pos h2] at h
          injection h with ht _
          exact Or.inr (Or.inl ht.symm)
        · rw [if_neg h2] at h
          by_cases h3 : pyStrip line = "3"
          · rw [if_pos h3] at h
            injection h with ht _
            exact Or.inr (Or.inr (Or.inl ht.symm))
          · rw [if_neg h3] at h
            by_cases h4 : pyStrip line = "4"
            · rw [if_pos h4] at h
              split at h
              · cases h
              · cases h
              · rename_i low rest1 hlow
                split at h
                · cases h
                · cases h
                · rename_i high rest2 hhigh
                  by_cases hcmp : high ≤ low
                  · rw [if_pos hcmp] at h
                    exact ih _ _ _ h
                  · rw [if_neg hcmp] at h
                    split at h
                    · cases h
                    · cases h
                    · rename_i att rest3 hatt
                      injection h with ht _
                      subst ht
                      have hat : (1 : Int) ≤ att := by
                        rcases ask_int_ok_spec hatt with ⟨hrange, -⟩
                        exact (outOfRange_false hrange).1 1 rfl
                      exact Or.inr (Or.inr (Or.inr
                        ⟨rfl, show low < high by omega, hat⟩))
            · rw [if_neg h4] at h
              exact ih _ _ _ h

/-- C6: the choice→tuple mapping of `choose_difficulty`.  Accepted menu
choices "1"/"2"/"3" immediately return their fixed rows (Easy, Medium,
Hard), consuming only the choice line; after choice "4", a completed
custom dialog (low, then high with `low < high`, then attempts read
with lower bound 1) returns the Custom-labelled tuple with those values
and an attempt budget of at least 1, while a bound pair with
`high ≤ low` is rejected and the whole menu re-prompts on the remaining
input; and every returned tuple is one of the three preset rows or a
Custom tuple with `high > low` and at least one attempt. -/
theorem c6_choose_difficulty_table :
    (∀ (line : String) (ls : List String), pyStrip line = "1" →
      choose_difficulty (line :: ls) = .ok ("Easy", 1, 10, 6) ls) ∧
    (∀ (line : String) (ls : List String), pyStrip line = "2" →
      choose_difficulty (line :: ls) = .ok ("Medium", 1, 50, 7) ls) ∧
    (∀ (line : String) (ls : List String), pyStrip line = "3" →
      choose_difficulty (line :: ls) = .ok ("Hard", 1, 100, 8) ls) ∧
    (∀ (line : String) (ls : List String) (low : Int) (r1 : List String)
        (high : Int) (r2 : List String) (att : Int) (r3 : List String),
      pyStrip line = "4" →
      ask_int none none ls = .ok low r1 →
      ask_int none none r1 = .ok high r2 →
      low < high →
      ask_int (some 1) none r2 = .ok att r3 →
      choose_difficulty (line :: ls) = .ok ("Custom", low, high, att) r3 ∧ 1 ≤ att) ∧
    (∀ (line : String) (ls : List String) (low : Int) (r1 : List String)
        (high : Int) (r2 : List String),
      pyStrip line = "4" →
      ask_int none none ls = .ok low r1 →
      ask_int none none r1 = .ok high r2 →
      high ≤ low →
      choose_difficulty (line :: ls) = choose_difficulty r2) ∧
    (∀ (lines : List String) (t : String × Int × Int × Int) (rest : List String),
      choose_difficulty lines = .ok t rest →
      t = ("Easy", 1, 10, 6) ∨ t = ("Medium", 1, 50, 7) ∨ t = ("Hard", 1, 100, 8) ∨
        (t.1 = "Custom" ∧ t.2.1 < t.2.2.1 ∧ 1 ≤ t.2.2.2)) := by
  refine ⟨?_, ?_, ?_, ?_, ?_, ?_⟩
  · intro line ls h
    rw [choose_difficulty, chooseDifficultyAux]
    simp [h]
  · intro line ls h
    rw [choose_difficulty, chooseDifficultyAux]
    simp [h]
  · intro line ls h
    rw [choose_difficulty, chooseDifficultyAux]
    simp [h]
  · intro line ls low r1 high r2 att r3 h4 hlow hhigh hlt hatt
    have hcmp : ¬ high ≤ low := not_le.mpr hlt
    refine ⟨?_, ?_⟩
    · rw [choose_difficulty, chooseDifficultyAux]
      simp [h4, hlow, hhigh, hcmp, hatt]
    · rcases ask_int_ok_spec hatt with ⟨hrange, -⟩
      exact (outOfRange_false hrange).1 1 rfl
  · intro line ls low r1 high r2 h4 hlow hhigh hcmp
    have hr1 : r1.length < ls.length := ask_int_ok_length hlow
    have hr2 : r2.length < r1.length := ask_int_ok_length hhigh
    rw [choose_difficulty, chooseDifficultyAux]
    simp only [h4, hlow, hhigh, if_pos hcmp]
    have hstep : chooseDifficultyAux ((line :: ls).length) r2 =
        chooseDifficultyAux (r2.length + 1) r2 :=
      chooseDifficultyAux_fuel _ r2 (by simp; omega) _ (by omega)
    simpa [choose_difficulty] using hstep
  · exact fun lines t rest h => chooseDifficultyAux_ok_spec _ lines t rest h

/-- Witness for C6: choice "1" yields Easy; a completed custom dialog
["4","1","9","0","3"] yields ("Custom",1,9,3) with budget ≥ 1 (the
attempts value 0 having been re-prompted); a rejected bound pair (5,2)
sends ["4","5","2","2"] back to the menu on the remaining input. -/
theorem c6_witness :
    choose_difficulty ["1", "x"] = .ok ("Easy", 1, 10, 6) ["x"] ∧
    (choose_difficulty ["4", "1", "9", "0", "3"] = .ok ("Custom", 1, 9, 3) [] ∧
      (1 : Int) ≤ 3) ∧
    choose_difficulty ["4", "5", "2", "2"] = choose_difficulty ["2"] :=
  ⟨c6_choose_difficulty_table.1 "1" ["x"] (by decide),
    c6_choose_difficulty_table.2.2.2.1 "4" ["1", "9", "0", "3"] 1 ["9", "0", "3"]
      9 ["0", "3"] 3 [] (by decide) (by decide) (by decide) (by decide) (by decide),
    c6_choose_difficulty_table.2.2.2.2.1 "4" ["5", "2", "2"] 5 ["2", "2"] 2 ["2"]
      (by decide) (by decide) (by decide) (by decide)⟩

/-- C9: a round that ends LOST leaves the backing file exactly as it
was; `play_round` saves only on a win. -/
theorem c9_lost_round_frame (rand : Int → Int → Int) (timeTaken : ℚ) (now : Int)
    (nameArg : Option String) (lines : List String) (fs : FileState)
    (attempts : Nat) (events : List (String × String)) (difficulty : String)
    (fs' : FileState) (rest : List String)
    (h : play_round rand timeTaken now nameArg lines fs =
      .done false attempts events difficulty fs' rest) :
    fs' = fs := by
  simp only [play_round] at h
  split at h
  · cases h
  · cases h
  · split at h
    · cases h
    · cases h
    · rename_i guessed attempts2 events2 rest2 heq
      by_cases hg : guessed = true
      · rw [if_pos hg] at h
        split at h
        · simp at h
        · split at h
          · cases h
          · simp at h
      · rw [if_neg hg] at h
        injection h with h1 h2 h3 h4 h5 h6
        exact h5.symm

/-- Witness for C9: a concrete lost Custom round (range 1–5, one
attempt, wrong guess 3) leaves the absent backing file absent. -/
theorem c9_witness : (FileState.absent : FileState) = .absent :=
  c9_lost_round_frame (fun l _ => l) 0 0 (some "P") ["4", "1", "5", "1", "3"]
    .absent 1 [("lower", "")] "Custom" .absent [] (by decide)

/-- C5: for every in-range wrong guess the emitted hint is "higher" when
the guess is below the secret and "lower" otherwise, and the closeness
qualifier is "very close" when the distance is at most max(1, W//20),
else "close" when at most max(1, W//5), else absent, with W the range
width; and the concrete scenario — range [1,10], secret 7, budget 6,
guesses 1,5,9,7 — prints hints "higher","higher","lower" and is won at
attempt 4. -/
theorem c5_hint_classification :
    (∀ low high secret guess : Int,
      low ≤ secret → secret ≤ high → low ≤ guess → guess ≤ high → guess ≠ secret →
      ((guess < secret → hintFor secret guess = "higher") ∧
       (secret < guess → hintFor secret guess = "lower") ∧
       (|secret - guess| ≤ max 1 ((high - low).fdiv 20) →
         closenessFor low high secret guess = " (very close!)") ∧
       (¬ |secret - guess| ≤ max 1 ((high - low).fdiv 20) →
         |secret - guess| ≤ max 1 ((high - low).fdiv 5) →
         closenessFor low high secret guess = " (close)") ∧
       (¬ |secret - guess| ≤ max 1 ((high - low).fdiv 5) →
         closenessFor low high secret guess = ""))) ∧
    play_round (fun _ _ => 7) 0 0 (some "A") ["1", "1", "5", "9", "7"] .absent =
      .done true 4 [("higher", ""), ("higher", ""), ("lower", "")] "Easy"
        (.content [⟨"A", 4, pyRound2 0, "Easy", 0⟩]) [] := by
  constructor
  · intro low high secret guess hls hsh hlg hgh hne
    have hd0 : |secret - guess| ≠ 0 := abs_ne_zero.mpr (sub_ne_zero.mpr hne.symm)
    have h20 : (high - low).fdiv 20 = (high - low) / 20 :=
      Int.fdiv_eq_ediv _ (by norm_num)
    have h5 : (high - low).fdiv 5 = (high - low) / 5 :=
      Int.fdiv_eq_ediv _ (by norm_num)
    have hdivle : (high - low).fdiv 20 ≤ (high - low).fdiv 5 := by
      rw [h20, h5]; omega
    have hmax : max 1 ((high - low).fdiv 20) ≤ max 1 ((high - low).fdiv 5) :=
      max_le_max le_rfl hdivle
    refine ⟨fun h => ?_, fun h => ?_, fun h => ?_, fun hn h => ?_, fun hn => ?_⟩
    · rw [hintFor, if_pos h]
    · rw [hintFor, if_neg (by omega)]
    · simp only [closenessFor]
      rw [if_neg hd0, if_pos h]
    · simp only [closenessFor]
      rw [if_neg hd0, if_neg hn, if_pos h]
    · simp only [closenessFor]
      rw [if_neg hd0, if_neg (fun hcon => hn (le_trans hcon hmax)), if_neg hn]
  · have h1 : choose_difficulty ["1", "1", "5", "9", "7"] =
        .ok ("Easy", 1, 10, 6) ["1", "5", "9", "7"] := by decide
    have h2 : guessLoopAux 7 1 10 6 0 ["1", "5", "9", "7"] =
        .finished true 4 [("higher", ""), ("higher", ""), ("lower", "")] [] := by decide
    simp [play_round, h1, h2, resolveName, save_score, load_scores, List.mergeSort, mkRecord]

/-- Witness for C5: the hint classification instantiated at range
[1, 10], secret 7, guess 5, together with the concrete scenario. -/
theorem c5_witness :
    (((5 : Int) < 7 → hintFor 7 5 = "higher") ∧
     ((7 : Int) < 5 → hintFor 7 5 = "lower") ∧
     (|(7 : Int) - 5| ≤ max 1 (((10 : Int) - 1).fdiv 20) →
       closenessFor 1 10 7 5 = " (very close!)") ∧
     (¬ |(7 : Int) - 5| ≤ max 1 (((10 : Int) - 1).fdiv 20) →
       |(7 : Int) - 5| ≤ max 1 (((10 : Int) - 1).fdiv 5) →
       closenessFor 1 10 7 5 = " (close)") ∧
     (¬ |(7 : Int) - 5| ≤ max 1 (((10 : Int) - 1).fdiv 5) →
       closenessFor 1 10 7 5 = "")) ∧
    play_round (fun _ _ => 7) 0 0 (some "A") ["1", "1", "5", "9", "7"] .absent =
      .done true 4 [("higher", ""), ("higher", ""), ("lower", "")] "Easy"
        (.content [⟨"A", 4, pyRound2 0, "Easy", 0⟩]) [] :=
  ⟨c5_hint_classification.1 1 10 7 5 (by decide) (by decide) (by decide)
      (by decide) (by decide),
    c5_hint_classification.2⟩

/-! ### Helper lemmas: saving -/

theorem load_save_score (i : SaveInput) (fs : FileState) :
    load_scores (save_score i fs) =
      ((load_scores fs ++ [mkRecord i]).mergeSort scoreLe).take 20 := rfl

/-- When the store is not yet full, the truncation in `save_score` is a
no-op. -/
theorem load_save_score_of_le {i : SaveInput} {fs : FileState}
    (h : (load_scores fs).length + 1 ≤ 20) :
    load_scores (save_score i fs) =
      (load_scores fs ++ [mkRecord i]).mergeSort scoreLe := by
  rw [load_save_score]
  apply List.take_of_length_le
  rw [List.length_mergeSort, List.length_append]
  simpa using h

/-- While the store stays within capacity, a sequence of saves
accumulates exactly the new records (as a sorted permutation). -/
theorem saveFold_perm_sorted :
    ∀ (inputs : List SaveInput) (fs : FileState),
    (load_scores fs).Pairwise scoreKeyLe →
    (load_scores fs).length + inputs.length ≤ 20 →
    (load_scores (saveFold inputs fs)).Perm (load_scores fs ++ inputs.map mkRecord) ∧
    (load_scores (saveFold inputs fs)).Pairwise scoreKeyLe := by
  intro inputs
  induction inputs with
  | nil =>
    intro fs hs _
    constructor
    · simp [saveFold]
    · simpa [saveFold] using hs
  | cons i rest ih =>
    intro fs hs hlen
    have hstep : load_scores (save_score i fs) =
        (load_scores fs ++ [mkRecord i]).mergeSort scoreLe := by
      apply load_save_score_of_le
      simp at hlen
      omega
    have hfold : saveFold (i :: rest) fs = saveFold rest (save_score i fs) := rfl
    have hsorted' : (load_scores (save_score i fs)).Pairwise scoreKeyLe := by
      rw [hstep]; exact pairwise_mergeSort_scoreLe _
    have hlen' : (load_scores (save_score i fs)).length + rest.length ≤ 20 := by
      rw [hstep, List.length_mergeSort, List.length_append]
      simp at hlen ⊢
      omega
    rcases ih (save_score i fs) hsorted' hlen' with ⟨hperm, hsort⟩
    rw [hfold]
    refine ⟨?_, hsort⟩
    rw [hstep] at hperm
    refine hperm.trans ?_
    have h4 := ((load_scores fs ++ [mkRecord i]).mergeSort_perm scoreLe).append_right
      (rest.map mkRecord)
    simpa using h4

/-- C2: starting from an absent backing file, N ≤ 20 saves followed by a
load reproduce exactly the N saved records field-for-field (each with
`time_taken` rounded to two decimals and its timestamp), arranged in
ascending (attempts, time_taken) order. -/
theorem c2_save_load_round_trip (inputs : List SaveInput)
    (h : inputs.length ≤ 20) :
    (load_scores (saveFold inputs .absent)).Perm (inputs.map mkRecord) ∧
    (load_scores (saveFold inputs .absent)).Pairwise scoreKeyLe ∧
    (load_scores (saveFold inputs .absent)).length = inputs.length := by
  rcases saveFold_perm_sorted inputs .absent (by simp [load_scores])
    (by simpa [load_scores] using h) with ⟨hperm, hsort⟩
  have hperm' : (load_scores (saveFold inputs .absent)).Perm (inputs.map mkRecord) := by
    simpa [load_scores] using hperm
  exact ⟨hperm', hsort, by rw [hperm'.length_eq, List.length_map]⟩

/-- Witness for C2 at two concrete saves. -/
theorem c2_witness :
    (load_scores (saveFold [⟨"B", 5, 1, "Easy", 3⟩, ⟨"A", 3, 2, "Hard", 7⟩] .absent)).Perm
      (([⟨"B", 5, 1, "Easy", 3⟩, ⟨"A", 3, 2, "Hard", 7⟩] : List SaveInput).map mkRecord) ∧
    (load_scores (saveFold [⟨"B", 5, 1, "Easy", 3⟩, ⟨"A", 3, 2, "Hard", 7⟩] .absent)).Pairwise scoreKeyLe ∧
    (load_scores (saveFold [⟨"B", 5, 1, "Easy", 3⟩, ⟨"A", 3, 2, "Hard", 7⟩] .absent)).length =
      ([⟨"B", 5, 1, "Easy", 3⟩, ⟨"A", 3, 2, "Hard", 7⟩] : List SaveInput).length :=
  c2_save_load_round_trip [⟨"B", 5, 1, "Easy", 3⟩, ⟨"A", 3, 2, "Hard", 7⟩] (by decide)

theorem take_append_take {α : Type} (n : Nat) (l m : List α) :
    (l.take n ++ m).take n = (l ++ m).take n := by
  rw [List.take_append_eq_append_take, List.take_append_eq_append_take,
    List.take_take, Nat.min_self, List.length_take]
  congr 2
  omega

/-- Saves with strictly increasing attempts, all above everything already
in a sorted store: the resulting store is the capped concatenation. -/
theorem saveFold_increasing :
    ∀ (inputs : List SaveInput) (fs : FileState),
    (load_scores fs).Pairwise scoreKeyLe →
    (load_scores fs).length ≤ 20 →
    (∀ x ∈ load_scores fs, ∀ i ∈ inputs, x.attempts < i.attempts) →
    inputs.Pairwise (fun a b => a.attempts < b.attempts) →
    load_scores (saveFold inputs fs) = (load_scores fs ++ inputs.map mkRecord).take 20 := by
  intro inputs
  induction inputs with
  | nil =>
    intro fs hs hlen _ _
    simp [saveFold, List.take_of_length_le hlen]
  | cons i rest ih =>
    intro fs hs hlen hbound hpair
    have hsortapp : (load_scores fs ++ [mkRecord i]).Pairwise scoreKeyLe := by
      rw [List.pairwise_append]
      refine ⟨hs, by simp, ?_⟩
      intro x hx b hb
      rw [List.mem_singleton] at hb
      subst hb
      exact Or.inl (hbound x hx i (List.mem_cons_self _ _))
    have hstep : load_scores (save_score i fs) =
        (load_scores fs ++ [mkRecord i]).take 20 := by
      rw [load_save_score, mergeSort_scoreLe_of_pairwise hsortapp]
    have hfold : saveFold (i :: rest) fs = saveFold rest (save_score i fs) := rfl
    have hs' : (load_scores (save_score i fs)).Pairwise scoreKeyLe := by
      rw [hstep]; exact hsortapp.sublist (List.take_sublist _ _)
    have hlen' : (load_scores (save_score i fs)).length ≤ 20 := by
      rw [hstep]; exact List.length_take_le _ _
    have hbound' : ∀ x ∈ load_scores (save_score i fs), ∀ j ∈ rest,
        x.attempts < j.attempts := by
      intro x hx j hj
      rw [hstep] at hx
      have hx' := (List.take_sublist _ _).mem hx
      rw [List.mem_append] at hx'
      rcases hx' with hx' | hx'
      · exact hbound x hx' j (List.mem_cons_of_mem _ hj)
      · rw [List.mem_singleton] at hx'
        subst hx'
        exact (List.pairwise_cons.mp hpair).1 j hj
    rw [hfold, ih _ hs' hlen' hbound' (List.pairwise_cons.mp hpair).2, hstep,
      take_append_take]
    simp

/-- C7: starting from an empty store, 25 sequential saves with strictly
increasing attempts 1..25 leave exactly the records of the first 20
saves (those with attempts 1..20); every surviving record has attempts
at most 20, so the records with attempts 21..25 are absent. -/
theorem c7_twentyfive_increasing_saves (inputs : List SaveInput)
    (h : inputs.map SaveInput.attempts = (List.range 25).map (fun k => (k : Int) + 1)) :
    load_scores (saveFold inputs .absent) = (inputs.take 20).map mkRecord ∧
    ∀ r ∈ load_scores (saveFold inputs .absent), r.attempts ≤ 20 := by
  have hpair : inputs.Pairwise (fun a b => a.attempts < b.attempts) := by
    have hmap : (inputs.map SaveInput.attempts).Pairwise (· < ·) := by
      rw [h]; decide
    exact List.pairwise_map.mp hmap
  have hmain := saveFold_increasing inputs .absent (by simp [load_scores])
    (by simp [load_scores]) (by simp [load_scores]) hpair
  have heq : load_scores (saveFold inputs .absent) = (inputs.take 20).map mkRecord := by
    rw [hmain]; simp [load_scores, List.map_take]
  refine ⟨heq, ?_⟩
  intro r hr
  rw [heq] at hr
  rcases List.mem_map.mp hr with ⟨i, hi, rfl⟩
  have hmem : i.attempts ∈ (inputs.take 20).map SaveInput.attempts :=
    List.mem_map_of_mem _ hi
  rw [List.map_take, h] at hmem
  have hv : ∀ x ∈ ((List.range 25).map (fun k => (k : Int) + 1)).take 20,
      x ≤ 20 := by decide
  exact hv _ hmem

/-- Witness for C7 at the concrete 25 inputs with attempts 1..25. -/
theorem c7_witness :
    load_scores (saveFold c7Inputs .absent) = (c7Inputs.take 20).map mkRecord ∧
    ∀ r ∈ load_scores (saveFold c7Inputs .absent), r.attempts ≤ 20 :=
  c7_twentyfive_increasing_saves c7Inputs (by decide)

/-- C10: the store after a save is exactly the first 20 of the previous
records plus the new sorted record; when 20 prior records all sort
strictly before the new one, the newly saved record is absent from the
resulting store. -/
theorem c10_new_record_can_be_dropped (i : SaveInput) (fs : FileState) :
    load_scores (save_score i fs) =
      ((load_scores fs ++ [mkRecord i]).mergeSort scoreLe).take 20 ∧
    ((load_scores fs).length = 20 →
      (∀ x ∈ load_scores fs, scoreKeyLt x (mkRecord i)) →
      mkRecord i ∉ load_scores (save_score i fs)) := by
  refine ⟨rfl, fun h20 hlt => ?_⟩
  have hL : load_scores (save_score i fs) =
      ((load_scores fs ++ [mkRecord i]).mergeSort scoreLe).take 20 := rfl
  set L := (load_scores fs ++ [mkRecord i]).mergeSort scoreLe with hLdef
  have hlen : L.length = 21 := by
    rw [hLdef, List.length_mergeSort, List.length_append, h20]
    rfl
  have hdrop : ∃ z, L.drop 20 = [z] := by
    apply List.length_eq_one.mp
    rw [List.length_drop, hlen]
  rcases hdrop with ⟨z, hz⟩
  have hsplit : L.take 20 ++ [z] = L := by
    rw [← hz, List.take_append_drop]
  have hsorted : L.Pairwise scoreKeyLe := pairwise_mergeSort_scoreLe _
  have hperm : L.Perm (load_scores fs ++ [mkRecord i]) := List.mergeSort_perm _ _
  have hnotmem : mkRecord i ∉ load_scores fs := fun hmem =>
    scoreKeyLt_irrefl _ (hlt _ hmem)
  intro hmem
  have hmem' : mkRecord i ∈ L.take 20 := by rw [hL] at hmem; exact hmem
  have hzmem : z ∈ L := by
    rw [← hsplit]
    exact List.mem_append_right _ (List.mem_singleton_self _)
  have hzcases : z ∈ load_scores fs ∨ z = mkRecord i := by
    have hz' := hperm.mem_iff.mp hzmem
    rw [List.mem_append, List.mem_singleton] at hz'
    exact hz'
  rcases hzcases with hzf | hzi
  · have hzlt : scoreKeyLt z (mkRecord i) := hlt z hzf
    have hle : scoreKeyLe (mkRecord i) z := by
      have hp : (L.take 20 ++ [z]).Pairwise scoreKeyLe := by
        rw [hsplit]; exact hsorted
      rw [List.pairwise_append] at hp
      exact hp.2.2 _ hmem' z (List.mem_singleton_self _)
    exact scoreKeyLt_not_le hzlt hle
  · have hcount1 : L.count (mkRecord i) = 1 := by
      rw [hperm.count_eq, List.count_append, List.count_eq_zero.mpr hnotmem]
      simp
    have hcount2 : 2 ≤ L.count (mkRecord i) := by
      rw [← hsplit, List.count_append]
      have h1 : 0 < (L.take 20).count (mkRecord i) := List.count_pos_iff.mpr hmem'
      have h2 : ([z].count (mkRecord i)) = 1 := by
        rw [hzi]
        exact List.count_singleton_self _
      omega
    omega

/-- Witness for C10: with a full store of 20 records with attempts 1..20,
saving a record with attempts 100 silently drops it. -/
theorem c10_witness :
    load_scores (save_score ⟨"Q", 100, 0, "Hard", 0⟩ (.content c10Prior)) =
      ((load_scores (.content c10Prior) ++ [mkRecord ⟨"Q", 100, 0, "Hard", 0⟩]).mergeSort
        scoreLe).take 20 ∧
    mkRecord ⟨"Q", 100, 0, "Hard", 0⟩ ∉
      load_scores (save_score ⟨"Q", 100, 0, "Hard", 0⟩ (.content c10Prior)) :=
  ⟨(c10_new_record_can_be_dropped ⟨"Q", 100, 0, "Hard", 0⟩ (.content c10Prior)).1,
    (c10_new_record_can_be_dropped ⟨"Q", 100, 0, "Hard", 0⟩ (.content c10Prior)).2
      (by decide) (by decide)⟩

end NumberGuess
